import Mathlib

/-!
Verification development for the jpy-tools streaming tabular data model and
its text-file helper utilities.

The `TextFileHelper` functions below are shallow embeddings of
`src/splurge_tools/text_file_helper.py` (`load` and `load_as_stream`), with a
file modelled as the list of raw lines that Python line iteration would
produce, and the skip parameters modelled as integers clamped with
`Int.toNat` exactly as the Python code clamps them with `max(0, _)`.

The streaming tabular data model itself (`StreamingTabularDataModel`) has no
implementation file in the repository snapshot — only its test suite — so it
is modelled from the specification document, as marked on each definition.
-/

/-- A data row: an ordered sequence of string cells. -/
abbrev Row := List String

/-- A chunk: one batch of rows produced by the row-chunk source in one pull. -/
abbrev Chunk := List Row

/-- The characters Python's `str.strip()` removes by default
(space, tab, newline, carriage return, vertical tab, form feed). -/
def isPyWhitespace (c : Char) : Bool :=
  c.toNat = 32 || c.toNat = 9 || c.toNat = 10 || c.toNat = 13 ||
    c.toNat = 11 || c.toNat = 12

/-- Python `str.strip()`: drop leading and trailing whitespace. -/
def pyStrip (s : String) : String :=
  String.mk (((s.data.dropWhile isPyWhitespace).reverse.dropWhile
    isPyWhitespace).reverse)

/-- Python `str.rstrip("\n")`: drop all trailing newline characters. -/
def pyRstripNewline (s : String) : String :=
  String.mk ((s.data.reverse.dropWhile (fun c => c = '\n')).reverse)

/-- The per-line processing both loaders apply:
`line.strip() if strip else line.rstrip("\n")`. -/
def processLine (strip : Bool) (line : String) : String :=
  if strip then pyStrip line else pyRstripNewline line

namespace TextFileHelper

/-- `TextFileHelper.load` from `src/splurge_tools/text_file_helper.py`:
skip `skip_header_rows` lines from the start (clamped at 0; a file shorter
than the skip yields `[]`, which `List.drop` also yields), process each
remaining line, then drop the last `skip_footer_rows` lines
(`lines[:-skip_footer_rows]`, with the whole result empty when the skip
reaches or exceeds the remaining length). -/
def load (fileLines : List String) (strip : Bool)
    (skip_header_rows skip_footer_rows : Int) : List String :=
  let sh := skip_header_rows.toNat
  let sf := skip_footer_rows.toNat
  let lines := (fileLines.drop sh).map (processLine strip)
  if 0 < sf then
    if lines.length ≤ sf then [] else lines.take (lines.length - sf)
  else lines

/-- The `skip_footer_rows > 0` loop of `load_as_stream`: a sliding-window
buffer (the Python `deque(maxlen=skip_footer_rows)`), the chunk being built,
and the chunks yielded so far.  Each incoming line is processed and appended
to the buffer; when the buffer reaches `sf` elements its oldest line is moved
to the current chunk, which is yielded once it reaches `chunkSize` lines.
The `deque` maxlen truncation never fires in the source: the buffer is popped
back below `sf` in the same iteration that fills it, so a plain list append
is an exact model. -/
def footerLoop (strip : Bool) (chunkSize sf : Nat) (buffer chunk : List String)
    (acc : List (List String)) : List String → List (List String)
  | [] => if chunk = [] then acc else acc ++ [chunk]
  | l :: rest =>
    let buf := buffer ++ [processLine strip l]
    if buf.length = sf then
      match buf with
      | [] => footerLoop strip chunkSize sf buf chunk acc rest
      | b :: bs =>
        let ch := chunk ++ [b]
        if chunkSize ≤ ch.length then
          footerLoop strip chunkSize sf bs [] (acc ++ [ch]) rest
        else
          footerLoop strip chunkSize sf bs ch acc rest
    else footerLoop strip chunkSize sf buf chunk acc rest

/-- The `skip_footer_rows == 0` loop of `load_as_stream`: accumulate processed
lines into the current chunk, yielding it whenever it reaches `chunkSize`. -/
def simpleLoop (strip : Bool) (chunkSize : Nat) (chunk : List String)
    (acc : List (List String)) : List String → List (List String)
  | [] => if chunk = [] then acc else acc ++ [chunk]
  | l :: rest =>
    let ch := chunk ++ [processLine strip l]
    if chunkSize ≤ ch.length then simpleLoop strip chunkSize [] (acc ++ [ch]) rest
    else simpleLoop strip chunkSize ch acc rest

/-- `TextFileHelper.load_as_stream` from
`src/splurge_tools/text_file_helper.py`: rejects `chunk_size < 100`, clamps
the skip parameters at 0, skips the header lines, then streams the remaining
lines in chunks, using the sliding-window `footerLoop` when
`skip_footer_rows > 0` and the plain `simpleLoop` otherwise.  The generator's
lazily yielded chunks are modelled as the finite list of all chunks it
yields. -/
def load_as_stream (fileLines : List String) (strip : Bool)
    (skip_header_rows skip_footer_rows chunk_size : Int) :
    Except String (List (List String)) :=
  if chunk_size < 100 then
    Except.error "TextFileHelper.load_as_stream: chunk_size is less than 100"
  else
    let sh := skip_header_rows.toNat
    let sf := skip_footer_rows.toNat
    let cs := chunk_size.toNat
    let rest := fileLines.drop sh
    if 0 < sf then Except.ok (footerLoop strip cs sf [] [] [] rest)
    else Except.ok (simpleLoop strip cs [] [] rest)

end TextFileHelper

/-- Modelled from the spec: synthesized column name for absolute position
`i` (`column_0`, `column_1`, ...). -/
def synthName (i : Nat) : String :=
  "column_" ++ toString i

/-- Modelled from the spec: a row is empty when every cell is blank or
whitespace-only (including a single cell that is itself blank). -/
def isEmptyRow (row : Row) : Bool :=
  row.all (fun cell => pyStrip cell = "")

/-- Modelled from the spec: the non-blank header cells at position `i`
across the header rows, in row order (rows too short to reach `i`, and rows
whose cell at `i` is blank/whitespace-only, contribute nothing). -/
def headerCellAt (headerData : List Row) (i : Nat) : List String :=
  headerData.filterMap (fun row =>
    match row.get? i with
    | some cell => if pyStrip cell = "" then none else some cell
    | none => none)

/-- Modelled from the spec: the resolved name at position `i` — the
underscore-join of the non-blank header cells at `i`, or `column_i` when
every header row is blank (or too short) at `i`. -/
def mergedName (headerData : List Row) (i : Nat) : String :=
  match headerCellAt headerData i with
  | [] => synthName i
  | parts => String.intercalate "_" parts

/-- Maximum row width across a list of rows. -/
def maxRowWidth (rows : List Row) : Nat :=
  rows.foldr (fun r acc => max r.length acc) 0

/-- Modelled from the spec: the standalone `process_headers(rows,
header_rows)` utility of the streaming tabular data model (the model's
implementation file is absent from the snapshot; only its tests are).
It takes the first `header_rows` rows as the header block, returns the
remaining rows as leftover, and resolves one name per position up to the
maximum header-row width. -/
def processHeaders (rows : List Row) (headerRows : Nat) :
    List Row × List String :=
  let headerData := rows.take headerRows
  let leftover := rows.drop headerRows
  if headerData.isEmpty then (leftover, [])
  else (leftover, (List.range (maxRowWidth headerData)).map (mergedName headerData))

/-- Modelled from the spec: the state of a `StreamingTabularDataModel` —
the remaining chunks of the row-chunk source, the configuration, the live
schema (`columnNames`), the row buffer, and the lazy-initialization flag. -/
structure StreamingModel where
  source : List Chunk
  headerRows : Nat
  skipEmptyRows : Bool
  chunkSize : Nat
  columnNames : List String
  buffer : List Row
  isInitialized : Bool
deriving Repr, DecidableEq

/-- Modelled from the spec: constructor validation, performed eagerly —
a missing source, a negative `header_rows`, or a `chunk_size` below 100 each
fail with the error message the test suite expects; on success the
configuration is stored unclamped and the model starts uninitialized with
an empty buffer and schema. -/
def mkStreamingModel (source : Option (List Chunk)) (headerRows : Int)
    (skipEmptyRows : Bool) (chunkSize : Int) : Except String StreamingModel :=
  match source with
  | none => Except.error "Stream is required"
  | some chunks =>
    if headerRows < 0 then
      Except.error "Header rows must be greater than or equal to 0"
    else if chunkSize < 100 then
      Except.error "chunk_size must be at least 100"
    else
      Except.ok
        { source := chunks
          headerRows := headerRows.toNat
          skipEmptyRows := skipEmptyRows
          chunkSize := chunkSize.toNat
          columnNames := []
          buffer := []
          isInitialized := false }

/-- Modelled from the spec: the empty-row filter applied to every chunk as
it enters the row buffer when `skip_empty_rows` is enabled. -/
def filterRows (skip : Bool) (rows : List Row) : List Row :=
  if skip then rows.filter (fun r => !isEmptyRow r) else rows

/-- Modelled from the spec: `refill()` pulls exactly one chunk from the
row-chunk source and appends it (empty rows dropped when configured) to the
row buffer; an exhausted source makes it a no-op. -/
def refill (m : StreamingModel) : StreamingModel :=
  match m.source with
  | [] => m
  | c :: cs =>
    { m with
      buffer := m.buffer ++ filterRows m.skipEmptyRows c
      source := cs }

/-- Modelled from the spec: during initialization, pull chunks from the
source until at least `need` raw rows have been observed or the source is
exhausted; rows pulled beyond `need` (the tail of the last chunk) are
retained, not discarded.  Returns the observed rows and the remaining
chunks. -/
def collectRows (need : Nat) (chunks : List Chunk) : List Row × List Chunk :=
  if need = 0 then ([], chunks)
  else
    match chunks with
    | [] => ([], [])
    | c :: cs =>
      if need ≤ c.length then (c, cs)
      else
        let p := collectRows (need - c.length) cs
        (c ++ p.1, p.2)

/-- Modelled from the spec: with zero configured header rows, pull chunks
(filtering empty rows as they enter the buffer) until a first data row is
available or the source is exhausted. -/
def fillLoop (skip : Bool) : List Chunk → List Row × List Chunk
  | [] => ([], [])
  | c :: cs =>
    let f := filterRows skip c
    if f.isEmpty then fillLoop skip cs else (f, cs)

/-- Modelled from the spec: the lazy, re-entrant initialization routine.
Already-initialized models are left untouched.  With `header_rows == 0` the
schema is synthesized as `column_0 … column_{k-1}` from the width `k` of the
first data row encountered (empty when no data row exists); otherwise the
first `header_rows` observed rows are fed to `processHeaders` and the rows
observed beyond them become the first buffered data rows.  Uninitialized
models always carry an empty buffer (construction and reset both clear
it). -/
def ensureInitialized (m : StreamingModel) : StreamingModel :=
  if m.isInitialized then m
  else if m.headerRows = 0 then
    let p := fillLoop m.skipEmptyRows m.source
    let names :=
      match p.1.head? with
      | some r => (List.range r.length).map synthName
      | none => []
    { m with
      columnNames := names
      buffer := p.1
      source := p.2
      isInitialized := true }
  else
    let p := collectRows m.headerRows m.source
    let q := processHeaders p.1 m.headerRows
    { m with
      columnNames := q.2
      buffer := filterRows m.skipEmptyRows q.1
      source := p.2
      isInitialized := true }

/-- Modelled from the spec: per-row normalization against the current
schema.  A row narrower than the schema is padded with empty-string cells; a
row wider than the schema first grows the schema by appending
`column_w … column_{r-1}` (absolute positions); a row of matching width
passes through unchanged.  Returns the (possibly grown) schema and the
emitted row. -/
def normalizeRow (names : List String) (row : Row) : List String × Row :=
  if row.length < names.length then
    (names, row ++ List.replicate (names.length - row.length) "")
  else if names.length < row.length then
    (names ++ (List.range' names.length (row.length - names.length)).map synthName,
      row)
  else (names, row)

/-- Modelled from the spec: normalize a sequence of data rows in stream
order, threading the schema through each step.  Returns the final schema and
the emitted rows. -/
def iterAux (names : List String) : List Row → List String × List Row
  | [] => (names, [])
  | r :: rs =>
    let p := normalizeRow names r
    let q := iterAux p.1 rs
    (q.1, p.2 :: q.2)

/-- Modelled from the spec: all data rows still to be emitted from a model
state — the buffered rows followed by the remaining chunks in order, each
chunk filtered of empty rows as it would be on refill.  This flattens the
one-chunk-at-a-time refill protocol, which drains rows in exactly this
order. -/
def pendingRows (m : StreamingModel) : List Row :=
  m.buffer ++ (m.source.map (filterRows m.skipEmptyRows)).flatten

/-- Modelled from the spec: run a model state to exhaustion — the final
schema and the full emitted row sequence of any iteration view. -/
def runModel (m : StreamingModel) : List String × List Row :=
  iterAux m.columnNames (pendingRows m)

/-- Modelled from the spec: first-match lookup from a column name to its
position in the schema. -/
def indexOfName (name : String) : List String → Option Nat
  | [] => none
  | n :: ns => if n = name then some 0 else (indexOfName name ns).map (· + 1)

/-- Modelled from the spec: `column_index(name)` — triggers lazy
initialization, then looks the name up in the schema, failing with a
message that carries the missing name when it is absent.  Returns the
result together with the (possibly initialized) model state. -/
def columnIndexOp (m : StreamingModel) (name : String) :
    Except String Nat × StreamingModel :=
  let m' := ensureInitialized m
  match indexOfName name m'.columnNames with
  | some i => (Except.ok i, m')
  | none => (Except.error ("Column name " ++ name ++ " not found"), m')

/-- Whether an `Except` result is a success. -/
def exceptIsOk {ε α : Type} : Except ε α → Bool
  | Except.ok _ => true
  | Except.error _ => false

/-- An initialized model state used to instantiate the state-invariant
claims (schema `Name,Age` over an exhausted source). -/
def exampleInitializedModel : StreamingModel :=
  { source := []
    headerRows := 1
    skipEmptyRows := true
    chunkSize := 100
    columnNames := ["Name", "Age"]
    buffer := []
    isInitialized := true }

/-- An uninitialized model with zero header rows, over a source whose first
data row is `John,25,New York` (the without-headers test). -/
def exampleZeroHeaderModel : StreamingModel :=
  { source := [[["John", "25", "New York"], ["Jane", "30", "Los Angeles"]]]
    headerRows := 0
    skipEmptyRows := true
    chunkSize := 100
    columnNames := []
    buffer := []
    isInitialized := false }

/-- An initialized model (schema `Name,Age`) whose next chunk contains the
empty row `[""]` between two data rows. -/
def exampleSkipModel : StreamingModel :=
  { source := [[["John", "25"], [""], ["Jane", "30"]]]
    headerRows := 1
    skipEmptyRows := true
    chunkSize := 100
    columnNames := ["Name", "Age"]
    buffer := []
    isInitialized := true }

/-! ## Supporting lemmas -/

/-- Per-row normalization only ever appends names to the schema. -/
theorem normalizeRow_schema_extends (names : List String) (row : Row) :
    ∃ ext, (normalizeRow names row).1 = names ++ ext := by
  unfold normalizeRow
  split
  · exact ⟨[], by simp⟩
  · split
    · exact ⟨_, rfl⟩
    · exact ⟨[], by simp⟩

/-- Normalizing a row sequence only ever appends names to the schema. -/
theorem iterAux_schema_extends (rows : List Row) (names : List String) :
    ∃ ext, (iterAux names rows).1 = names ++ ext := by
  induction rows generalizing names with
  | nil => exact ⟨[], by simp [iterAux]⟩
  | cons r rs ih =>
    obtain ⟨e1, h1⟩ := normalizeRow_schema_extends names r
    obtain ⟨e2, h2⟩ := ih (normalizeRow names r).1
    refine ⟨e1 ++ e2, ?_⟩
    show (iterAux (normalizeRow names r).1 rs).1 = names ++ (e1 ++ e2)
    rw [h2, h1, List.append_assoc]

/-- Normalization over an appended row sequence composes: the second part
starts from the schema the first part ended with. -/
theorem iterAux_append (xs ys : List Row) (names : List String) :
    iterAux names (xs ++ ys) =
      ((iterAux (iterAux names xs).1 ys).1,
        (iterAux names xs).2 ++ (iterAux (iterAux names xs).1 ys).2) := by
  induction xs generalizing names with
  | nil => simp [iterAux]
  | cons r rs ih => simp [iterAux, ih]

/-- The initialization routine is the identity on initialized models. -/
theorem ensureInitialized_eq_self (m : StreamingModel)
    (h : m.isInitialized = true) : ensureInitialized m = m := by
  simp [ensureInitialized, h]

/-- The initialization routine always leaves the model initialized. -/
theorem ensureInitialized_flag (m : StreamingModel) :
    (ensureInitialized m).isInitialized = true := by
  unfold ensureInitialized
  split
  · assumption
  · split <;> rfl

/-- First-match lookup fails exactly on absent names. -/
theorem indexOfName_eq_none (name : String) (l : List String)
    (h : name ∉ l) : indexOfName name l = none := by
  induction l with
  | nil => rfl
  | cons n ns ih =>
    simp only [List.mem_cons, not_or] at h
    rw [indexOfName, if_neg (fun hn => h.1 hn.symm), ih h.2]
    rfl

/-! ## Claims -/

/-- C1: For every emitted data row, given the current schema width `w` and
raw row width `r`: if `r < w` the row is emitted padded with empty-string
cells up to width `w`; if `r > w` the schema first grows by appending the
synthesized names `column_w … column_{r-1}` and the row is then emitted at
the new width `r`; if `r = w` the row is emitted unchanged. -/
theorem c1_row_normalization (names : List String) (row : Row) :
    (row.length < names.length →
      normalizeRow names row =
        (names, row ++ List.replicate (names.length - row.length) "")) ∧
    (names.length < row.length →
      normalizeRow names row =
        (names ++ (List.range' names.length (row.length - names.length)).map synthName,
          row) ∧
      (normalizeRow names row).1.length = row.length) ∧
    (row.length = names.length → normalizeRow names row = (names, row)) := by
  refine ⟨fun h => ?_, fun h => ?_, fun h => ?_⟩
  · simp only [normalizeRow, if_pos h]
  · have h' : ¬ row.length < names.length := by omega
    constructor
    · simp only [normalizeRow, if_neg h', if_pos h]
    · simp only [normalizeRow, if_neg h', if_pos h, List.length_append,
        List.length_map, List.length_range']
      omega
  · have h1 : ¬ row.length < names.length := by omega
    have h2 : ¬ names.length < row.length := by omega
    simp only [normalizeRow, if_neg h1, if_neg h2]

/-- C1 witness: the three cases at the concrete rows of the uneven-rows
test (schema `Name,Age,City,Country`; rows of width 3, 5 and 4). -/
theorem c1_row_normalization_witness :
    normalizeRow ["Name", "Age", "City", "Country"] ["John", "25", "New York"] =
      (["Name", "Age", "City", "Country"], ["John", "25", "New York", ""]) ∧
    normalizeRow ["Name", "Age", "City", "Country"]
        ["Jane", "30", "Los Angeles", "USA", "Extra"] =
      (["Name", "Age", "City", "Country", "column_4"],
        ["Jane", "30", "Los Angeles", "USA", "Extra"]) ∧
    normalizeRow ["Name", "Age", "City", "Country"] ["Bob", "35", "Chicago", "USA"] =
      (["Name", "Age", "City", "Country"], ["Bob", "35", "Chicago", "USA"]) := by
  refine ⟨?_, ?_, ?_⟩
  · exact (c1_row_normalization _ _).1 (by decide)
  · exact ((c1_row_normalization _ _).2.1 (by decide)).1.trans (by decide)
  · exact (c1_row_normalization _ _).2.2 (by decide)

/-- C8: the schema only ever grows by appending names across an iteration
pass — it is a prefix-extension of its earlier value, its length is
non-decreasing, every existing position keeps its name, and a pass over an
appended row sequence continues from the schema the first part ended with,
so the growth is monotone across every sequence of operations. -/
theorem c8_schema_monotone (names : List String) (rows more : List Row) :
    (∃ ext, (iterAux names rows).1 = names ++ ext) ∧
    names.length ≤ (iterAux names rows).1.length ∧
    (∀ i, i < names.length → (iterAux names rows).1.get? i = names.get? i) ∧
    (iterAux names (rows ++ more)).1 = (iterAux (iterAux names rows).1 more).1 := by
  obtain ⟨ext, hext⟩ := iterAux_schema_extends rows names
  refine ⟨⟨ext, hext⟩, ?_, ?_, ?_⟩
  · rw [hext]; simp
  · intro i hi
    rw [hext]
    simp only [List.get?_eq_getElem?]
    exact List.getElem?_append_left hi
  · rw [iterAux_append]

/-- C8 witness: a pass over the dynamic-expansion test's first row followed
by its second row continues from the grown schema `Name,Age,column_2`. -/
theorem c8_schema_monotone_witness :
    (iterAux ["Name", "Age"] ([["John", "25", "Extra1"]] ++ [["Jane", "30"]])).1 =
      (iterAux (iterAux ["Name", "Age"] [["John", "25", "Extra1"]]).1
        [["Jane", "30"]]).1 :=
  (c8_schema_monotone ["Name", "Age"] [["John", "25", "Extra1"]]
    [["Jane", "30"]]).2.2.2

/-- C9: initialization is idempotent and re-entrant — on an
already-initialized model it is a no-op leaving the whole state (schema, row
buffer, flag) unchanged, it always sets the initialized flag, and running it
twice in a row equals running it once. -/
theorem c9_init_idempotent (m : StreamingModel) :
    (m.isInitialized = true → ensureInitialized m = m) ∧
    (ensureInitialized m).isInitialized = true ∧
    ensureInitialized (ensureInitialized m) = ensureInitialized m :=
  ⟨ensureInitialized_eq_self m, ensureInitialized_flag m,
    ensureInitialized_eq_self _ (ensureInitialized_flag m)⟩

/-- C9 witness: the initialization routine is a no-op on a concrete
initialized model. -/
theorem c9_init_idempotent_witness :
    ensureInitialized exampleInitializedModel = exampleInitializedModel :=
  (c9_init_idempotent exampleInitializedModel).1 rfl

/-- C10: on an initialized model, looking up a name absent from the schema
fails with an error message that carries the missing name, and leaves the
model state (schema included) unchanged. -/
theorem c10_column_index_not_found (m : StreamingModel) (name : String)
    (hinit : m.isInitialized = true) (habs : name ∉ m.columnNames) :
    (columnIndexOp m name).1 =
      Except.error ("Column name " ++ name ++ " not found") ∧
    (columnIndexOp m name).2 = m := by
  have he : ensureInitialized m = m := ensureInitialized_eq_self m hinit
  have hn : indexOfName name m.columnNames = none :=
    indexOfName_eq_none name m.columnNames habs
  simp [columnIndexOp, he, hn]

/-- C10 witness: looking up `InvalidColumn` in the schema `Name,Age` fails
with the message the test suite expects and leaves the model unchanged. -/
theorem c10_column_index_not_found_witness :
    (columnIndexOp exampleInitializedModel "InvalidColumn").1 =
      Except.error "Column name InvalidColumn not found" ∧
    (columnIndexOp exampleInitializedModel "InvalidColumn").2 =
      exampleInitializedModel :=
  c10_column_index_not_found exampleInitializedModel "InvalidColumn" rfl
    (by decide)

/-- C4: construction fails immediately — with the test suite's error
messages — when the source is missing, when `header_rows` is negative, or
when `chunk_size` is below 100, each condition independently; construction
succeeds exactly when all three are valid, and on success the configuration
is stored without clamping and no pre-initialized state is produced. -/
theorem c4_constructor_validation (chunks : List Chunk) (headerRows : Int)
    (skipEmptyRows : Bool) (chunkSize : Int) :
    mkStreamingModel none headerRows skipEmptyRows chunkSize =
      Except.error "Stream is required" ∧
    (headerRows < 0 →
      mkStreamingModel (some chunks) headerRows skipEmptyRows chunkSize =
        Except.error "Header rows must be greater than or equal to 0") ∧
    (0 ≤ headerRows → chunkSize < 100 →
      mkStreamingModel (some chunks) headerRows skipEmptyRows chunkSize =
        Except.error "chunk_size must be at least 100") ∧
    (exceptIsOk (mkStreamingModel (some chunks) headerRows skipEmptyRows chunkSize)
        = true ↔ 0 ≤ headerRows ∧ 100 ≤ chunkSize) ∧
    (∀ m, mkStreamingModel (some chunks) headerRows skipEmptyRows chunkSize =
        Except.ok m →
      (m.headerRows : Int) = headerRows ∧ (m.chunkSize : Int) = chunkSize ∧
        m.isInitialized = false ∧ m.columnNames = [] ∧ m.buffer = []) := by
  refine ⟨rfl, fun h => ?_, fun h1 h2 => ?_, ?_, fun m hm => ?_⟩
  · simp [mkStreamingModel, h]
  · simp [mkStreamingModel, h2, Int.not_lt.mpr h1]
  · by_cases h1 : headerRows < 0
    · simp only [mkStreamingModel, if_pos h1, exceptIsOk]
      constructor
      · intro h
        exact absurd h (by decide)
      · intro h
        omega
    · by_cases h2 : chunkSize < 100
      · simp only [mkStreamingModel, if_neg h1, if_pos h2, exceptIsOk]
        constructor
        · intro h
          exact absurd h (by decide)
        · intro h
          omega
      · simp only [mkStreamingModel, if_neg h1, if_neg h2, exceptIsOk]
        constructor
        · intro _
          omega
        · intro _
          trivial
  · by_cases h1 : headerRows < 0
    · simp [mkStreamingModel, h1] at hm
    · by_cases h2 : chunkSize < 100
      · simp [mkStreamingModel, h1, h2] at hm
      · simp only [mkStreamingModel, if_neg h1, if_neg h2, Except.ok.injEq] at hm
        subst hm
        refine ⟨?_, ?_, rfl, rfl, rfl⟩
        · exact Int.toNat_of_nonneg (Int.not_lt.mp h1)
        · exact Int.toNat_of_nonneg (by omega)

/-- C4 witness: a negative `header_rows` alone fails construction with the
expected message. -/
theorem c4_constructor_validation_witness :
    mkStreamingModel (some []) (-1) true 500 =
      Except.error "Header rows must be greater than or equal to 0" :=
  (c4_constructor_validation [] (-1) true 500).2.1 (by decide)

/-- The resolved name list always has one name per position up to the
maximum width of the header block. -/
theorem processHeaders_length (rows : List Row) (k : Nat) :
    ((processHeaders rows k).2).length = maxRowWidth (rows.take k) := by
  unfold processHeaders
  by_cases h : (rows.take k).isEmpty
  · rw [if_pos h]
    rw [List.isEmpty_iff] at h
    simp [h, maxRowWidth]
  · rw [if_neg h]
    simp

/-- The resolved name at an in-range position is the merge of the header
cells there. -/
theorem processHeaders_get (rows : List Row) (k : Nat) (i : Nat)
    (hi : i < maxRowWidth (rows.take k)) :
    ((processHeaders rows k).2).get? i = some (mergedName (rows.take k) i) := by
  unfold processHeaders
  have hne : ¬ (rows.take k).isEmpty = true := by
    intro h
    rw [List.isEmpty_iff] at h
    rw [h] at hi
    simp [maxRowWidth] at hi
  rw [if_neg hne]
  rw [List.get?_map, List.get?_range hi]
  rfl

/-- C5: for `header_rows ≥ 1` the resolved column count is the maximum row
width across the whole header block (not the width of the first header
row), positions blank in every header row resolve to `column_i`, and the
test's header block of widths 2 and 3 resolves to 3 names. -/
theorem c5_header_width_max (rows : List Row) (k : Nat) (_hk : 1 ≤ k) :
    ((processHeaders rows k).2).length = maxRowWidth (rows.take k) ∧
    (∀ i, i < maxRowWidth (rows.take k) → headerCellAt (rows.take k) i = [] →
      ((processHeaders rows k).2).get? i = some (synthName i)) ∧
    ((processHeaders [["Name", "Age"], ["John", "25", "Extra"]] 2).2).length = 3 := by
  refine ⟨processHeaders_length rows k, fun i hi hc => ?_, by decide⟩
  rw [processHeaders_get rows k i hi]
  unfold mergedName
  rw [hc]

/-- C5 witness: `process_headers` on header rows of widths 2 and 3 yields
3 column names. -/
theorem c5_header_width_max_witness :
    ((processHeaders [["Name", "Age"], ["John", "25", "Extra"]] 2).2).length = 3 :=
  (c5_header_width_max [["Name", "Age"], ["John", "25", "Extra"]] 2
    (by decide)).2.2

/-- C2: for a header block of `k ≥ 2` rows, the resolved name at each
in-range position `i` is the underscore-join of the non-blank header cells
at `i` across all header rows in row order, `column_i` when every header
row is blank (or too short) at `i`; in particular the two-row block
`Personal,Personal,Location` / `Name,Age,City` resolves to
`Personal_Name,Personal_Age,Location_City`. -/
theorem c2_multi_row_header_merge (hs : List Row) (k : Nat) (_hk : 2 ≤ k)
    (hlen : hs.length = k) :
    (∀ i, i < maxRowWidth hs → headerCellAt hs i ≠ [] →
      ((processHeaders hs k).2).get? i =
        some (String.intercalate "_" (headerCellAt hs i))) ∧
    (∀ i, i < maxRowWidth hs → headerCellAt hs i = [] →
      ((processHeaders hs k).2).get? i = some (synthName i)) ∧
    processHeaders [["Personal", "Personal", "Location"], ["Name", "Age", "City"]] 2 =
      ([], ["Personal_Name", "Personal_Age", "Location_City"]) := by
  have ht : hs.take k = hs := by
    rw [← hlen]
    exact List.take_length hs
  refine ⟨fun i hi hc => ?_, fun i hi hc => ?_, by decide⟩
  · rw [processHeaders_get hs k i (by rw [ht]; exact hi)]
    rw [ht]
    unfold mergedName
    cases hcc : headerCellAt hs i with
    | nil => exact absurd hcc hc
    | cons p ps => rfl
  · rw [processHeaders_get hs k i (by rw [ht]; exact hi)]
    rw [ht]
    unfold mergedName
    rw [hc]

/-- C2 witness: the two-row header block of the multi-row-header test
resolves to the merged names the test asserts. -/
theorem c2_multi_row_header_merge_witness :
    processHeaders [["Personal", "Personal", "Location"], ["Name", "Age", "City"]] 2 =
      ([], ["Personal_Name", "Personal_Age", "Location_City"]) :=
  (c2_multi_row_header_merge
    [["Personal", "Personal", "Location"], ["Name", "Age", "City"]] 2
    (by decide) (by decide)).2.2

/-- The first data row produced by the zero-header fill loop is the first
row of the flattened, empty-filtered source. -/
theorem fillLoop_head (skip : Bool) (chunks : List Chunk) :
    (fillLoop skip chunks).1.head? =
      ((chunks.map (filterRows skip)).flatten).head? := by
  induction chunks with
  | nil => rfl
  | cons c cs ih =>
    by_cases h : (filterRows skip c).isEmpty
    · have hc : filterRows skip c = [] := List.isEmpty_iff.mp h
      simp [fillLoop, h, hc, ih]
    · cases hc : filterRows skip c with
      | nil => rw [hc] at h; exact absurd rfl h
      | cons a l => simp [fillLoop, h, hc]

/-- C7: with `header_rows = 0`, initialization synthesizes
`column_0 … column_{k-1}` from the width `k` of the first data row
encountered, yields an empty name list when no data row is available, and
on the first data row `John,25,New York` resolves to
`column_0,column_1,column_2`. -/
theorem c7_zero_header_synthesis (m : StreamingModel)
    (hinit : m.isInitialized = false) (h0 : m.headerRows = 0) :
    (∀ r rs, (m.source.map (filterRows m.skipEmptyRows)).flatten = r :: rs →
      (ensureInitialized m).columnNames = (List.range r.length).map synthName) ∧
    ((m.source.map (filterRows m.skipEmptyRows)).flatten = [] →
      (ensureInitialized m).columnNames = []) ∧
    (ensureInitialized exampleZeroHeaderModel).columnNames =
      ["column_0", "column_1", "column_2"] := by
  have hmain : (ensureInitialized m).columnNames =
      match (fillLoop m.skipEmptyRows m.source).1.head? with
      | some r => (List.range r.length).map synthName
      | none => [] := by
    unfold ensureInitialized
    rw [if_neg (by rw [hinit]; exact Bool.false_ne_true), if_pos h0]
  refine ⟨fun r rs hflat => ?_, fun hflat => ?_, by decide⟩
  · rw [hmain, fillLoop_head, hflat]
    rfl
  · rw [hmain, fillLoop_head, hflat]
    rfl

/-- C7 witness: the concrete zero-header model resolves its schema from the
width of its first data row. -/
theorem c7_zero_header_synthesis_witness :
    (ensureInitialized exampleZeroHeaderModel).columnNames =
      ["column_0", "column_1", "column_2"] :=
  (c7_zero_header_synthesis exampleZeroHeaderModel rfl rfl).2.2

/-- C3: with `skip_empty_rows` enabled, a row whose cells are all blank or
whitespace-only is dropped before entering the row buffer: running the model
with the empty row in a chunk gives exactly the same final schema and
emitted row sequence as running it without, and a refill never lets an
empty row into the buffer. -/
theorem c3_skip_empty_rows (m : StreamingModel) (pre post : List Row) (e : Row)
    (cs : List Chunk) (hskip : m.skipEmptyRows = true)
    (he : isEmptyRow e = true) (hsrc : m.source = (pre ++ e :: post) :: cs) :
    runModel m = runModel { m with source := (pre ++ post) :: cs } ∧
    (∀ r, r ∈ (refill m).buffer → r ∈ m.buffer ∨ isEmptyRow r = false) := by
  have hfil : filterRows m.skipEmptyRows (pre ++ e :: post) =
      filterRows m.skipEmptyRows (pre ++ post) := by
    simp [filterRows, hskip, List.filter_append, List.filter_cons, he]
  constructor
  · unfold runModel pendingRows
    dsimp only
    rw [hsrc]
    simp only [List.map_cons, List.flatten_cons, hfil]
  · intro r hr
    have hre : refill m = { m with
        buffer := m.buffer ++ filterRows m.skipEmptyRows (pre ++ e :: post)
        source := cs } := by
      unfold refill
      rw [hsrc]
    rw [hre] at hr
    dsimp only at hr
    rcases List.mem_append.mp hr with h | h
    · exact Or.inl h
    · right
      rw [hskip] at h
      simp only [filterRows, if_pos trivial, if_true] at h
      have hmem := (List.mem_filter.mp h).2
      simpa using hmem

/-- C3 witness: running the skip-empty model over its chunk containing the
blank row `[""]` equals running it with that row removed. -/
theorem c3_skip_empty_rows_witness :
    runModel exampleSkipModel =
      runModel { exampleSkipModel with source := [[["John", "25"], ["Jane", "30"]]] } :=
  (c3_skip_empty_rows exampleSkipModel [["John", "25"]] [["Jane", "30"]] [""] []
    rfl (by decide) rfl).1

/-- C6: the claimed refinement fails on the code.  For the two-line file
`a\n` / `b\n` with `strip=True`, `skip_header_rows=0`, `skip_footer_rows=1`
and `chunk_size=100`, `load` drops the final line and returns `["a"]`, but
`load_as_stream` yields the single chunk `["a", "b"]` — its sliding-window
footer logic moves a line out of the buffer as soon as the buffer reaches
`skip_footer_rows` lines, so it only ever withholds `skip_footer_rows - 1`
trailing lines and the concatenation of its chunks differs from `load`. -/
theorem c6_stream_load_divergence :
    TextFileHelper.load_as_stream ["a\n", "b\n"] true 0 1 100 =
      Except.ok [["a", "b"]] ∧
    TextFileHelper.load ["a\n", "b\n"] true 0 1 = ["a"] ∧
    [["a", "b"]].flatten ≠ TextFileHelper.load ["a\n", "b\n"] true 0 1 := by
  refine ⟨rfl, by decide, by decide⟩

/-- With `skip_footer_rows = 1` the sliding-window loop emits every line:
the buffer is emptied in the same iteration that fills it, so nothing is
ever withheld. -/
theorem footerLoop_sf_one (strip : Bool) (cs : Nat) :
    ∀ (rest c : List String) (a : List (List String)),
      (TextFileHelper.footerLoop strip cs 1 [] c a rest).flatten =
        a.flatten ++ c ++ rest.map (processLine strip) := by
  intro rest
  induction rest with
  | nil =>
    intro c a
    by_cases h : c = []
    · simp [TextFileHelper.footerLoop, h]
    · simp [TextFileHelper.footerLoop, h]
  | cons l rest' ih =>
    intro c a
    rw [TextFileHelper.footerLoop]
    simp only [List.nil_append, List.length_cons, List.length_nil, Nat.zero_add,
      eq_self_iff_true, if_true]
    by_cases hch : cs ≤ (c ++ [processLine strip l]).length
    · rw [if_pos hch, ih]
      simp
    · rw [if_neg hch, ih]
      simp

/-- The general shape of the C6 divergence: for every file and every valid
`chunk_size`, with `skip_footer_rows = 1` the concatenated chunks of
`load_as_stream` are all the processed lines, while `load` drops the last
one — so the two disagree on every input that leaves at least one line
after header skipping. -/
theorem stream_footer_off_by_one (fileLines : List String) (strip : Bool)
    (sh cs : Int) (hcs : 100 ≤ cs) :
    ∃ chunks,
      TextFileHelper.load_as_stream fileLines strip sh 1 cs = Except.ok chunks ∧
      chunks.flatten = (fileLines.drop sh.toNat).map (processLine strip) ∧
      TextFileHelper.load fileLines strip sh 1 =
        ((fileLines.drop sh.toNat).map (processLine strip)).dropLast := by
  refine ⟨TextFileHelper.footerLoop strip cs.toNat 1 [] [] []
    (fileLines.drop sh.toNat), ?_, ?_, ?_⟩
  · unfold TextFileHelper.load_as_stream
    rw [if_neg (by omega)]
    rfl
  · rw [footerLoop_sf_one]
    simp
  · unfold TextFileHelper.load
    rw [if_pos (by decide)]
    by_cases hlen : ((fileLines.drop sh.toNat).map (processLine strip)).length ≤
        (1 : Int).toNat
    · rw [if_pos hlen]
      have : ((fileLines.drop sh.toNat).map (processLine strip)).length ≤ 1 := hlen
      rw [List.dropLast_eq_take]
      rw [show ((fileLines.drop sh.toNat).map (processLine strip)).length - 1 = 0 by
        omega]
      simp
    · rw [if_neg hlen]
      rw [List.dropLast_eq_take]
      rfl
